import Mathlib

/-!
Verification of the reference catalog in `Cpp-_Headers`
(`src/algorithm.cpp`, `src/bitset.cpp`).

The repository is a documentation catalog: each entry names a standard
C++ operation, describes it, and optionally shows a worked example with
its expected console output.  This file embeds those worked examples and
the catalog structure shallowly:

* a `std::bitset<8>` value is a natural number `< 256`; its string
  rendering (`operator<<` / `to_string`) lists bits 7 down to 0;
* the example programs' loops are translated line by line into Lean
  functions (`carryLoop` for the binary-addition example, the walking
  loops for the non-modifying algorithms);
* the catalog itself (the `Algorithm Functions` table and the bitset
  feature table) is embedded as lists of entries, and the `lookup`
  service that the spec describes (it is not implemented in the
  repository) is modelled from the spec's words.
-/

/-! ## Bitset model (`src/bitset.cpp`)

A `std::bitset<8>` is modelled by its value, a natural number `< 256`.
-/

/-- `std::bitset<8>(s)`: the string constructor reads the characters left
to right, the leftmost character giving the highest bit ('1' sets the
bit, '0' clears it; any other character makes the C++ constructor throw
`std::invalid_argument`, hence theorems restrict inputs to binary
strings).  A string shorter than 8 leaves the high bits zero, exactly as
in C++. -/
def bsOfString (s : List Char) : Nat :=
  s.foldl (fun v c => 2 * v + (if c = '1' then 1 else 0)) 0

/-- The character printed for bit `i` of value `v`. -/
def bitChar (v : Nat) (i : Nat) : Char :=
  if v.testBit i then '1' else '0'

/-- `to_string()` / `operator<<` on `std::bitset<8>`: position `i` of the
printed string holds bit `8 - 1 - i`, so the output lists bits 7 down
to 0 and always has exactly 8 characters. -/
def bsToString (v : Nat) : List Char :=
  [bitChar v 7, bitChar v 6, bitChar v 5, bitChar v 4,
   bitChar v 3, bitChar v 2, bitChar v 1, bitChar v 0]

/-- `b.set(i)`: sets bit `i` to 1. -/
def bsSet (v i : Nat) : Nat := v ||| (1 <<< i)

/-- `b.reset(i)`: clears bit `i` to 0 (mask with the complement of bit
`i` inside 8 bits). -/
def bsReset (v i : Nat) : Nat := v &&& (255 ^^^ (1 <<< i))

/-- `b.flip(i)`: toggles bit `i`. -/
def bsFlip (v i : Nat) : Nat := v ^^^ (1 <<< i)

/-- One run of the carry-propagation `while` loop of Example 8 in
`src/bitset.cpp`, with explicit fuel:

```
while (carry.any()) {
    std::bitset<8> temp = result;
    result = result ^ carry;
    carry = (temp & carry) << 1;
}
```

The pair is `(result, carry)`; `carry.any()` is `carry ≠ 0`; the shift
is truncated to 8 bits as on a `std::bitset<8>`. -/
def carryLoop : Nat → Nat × Nat → Nat × Nat
  | 0, p => p
  | fuel + 1, (r, c) =>
      if c = 0 then (r, c)
      else carryLoop fuel (r ^^^ c, ((r &&& c) <<< 1) % 256)

/-- Example 8 of `src/bitset.cpp`: `result = b1 ^ b2`,
`carry = (b1 & b2) << 1`, then the carry-propagation loop (8 rounds of
fuel always suffice, see `carry_loop_terminates`). -/
def binaryAdditionResult (b1 b2 : Nat) : Nat :=
  (carryLoop 8 (b1 ^^^ b2, ((b1 &&& b2) <<< 1) % 256)).1

example : bsOfString ['1', '0', '1', '0', '1', '0', '1', '0'] = 170 := by decide
example : bsToString 173 = ['1', '0', '1', '0', '1', '1', '0', '1'] := by decide
example :
    bsFlip (bsReset (bsSet (bsOfString ['1', '0', '1', '0', '1', '0', '1', '0']) 0) 1) 2
      = 173 := by decide
example : binaryAdditionResult 13 11 = 24 := by decide

/-! ## Printing in the `src/algorithm.cpp` examples -/

/-- The elements rendered space-separated (no trailing space), the form
in which the documented outputs quote them. -/
def spaceSeparated (l : List Int) : String :=
  String.intercalate " " (l.map (fun n => toString n))

/-- The printing loop the examples actually run:
`for (int n : nums) { std::cout << n << " "; }` — each element followed
by one space, so the emitted text carries a trailing space. -/
def printLoop (l : List Int) : String :=
  String.join (l.map (fun n => toString n ++ " "))

/-! ## Sorting model

`std::sort(first, last, comp)` is specified relationally: the result is
a permutation of the input that is sorted with respect to `comp`.  With
the comparator `a > b` of Example 2 the sortedness postcondition
`!comp(a[j+1], a[j])` is `a[j] ≥ a[j+1]`, i.e. `List.Sorted (· ≥ ·)`.
`sortAsc` below is a concrete (insertion) sort used to state, per the
standard, which element `std::nth_element` must bring into place. -/

/-- Insert into an ascending-sorted list. -/
def insertAsc (x : Int) : List Int → List Int
  | [] => [x]
  | y :: ys => if x ≤ y then x :: y :: ys else y :: insertAsc x ys

/-- Ascending insertion sort (the sequence `std::sort` with the default
`<` comparator produces, used to phrase the `nth_element` guarantee). -/
def sortAsc : List Int → List Int
  | [] => []
  | x :: xs => insertAsc x (sortAsc xs)

/-- Postcondition of `std::nth_element(first, first + n, last)` on
`input`, for an outcome `l` (cppreference/[alg.nth.element]): `l` is a
permutation of `input`; the element at position `n` is the element that
position would hold if the range were sorted; and no element before
position `n` is greater than any element from position `n` on.  The
standard specifies nothing further — the order within the two sides is
unspecified. -/
def nthElementPost (input : List Int) (n : Nat) (l : List Int) : Prop :=
  l.Perm input ∧ l[n]? = (sortAsc input)[n]? ∧
    ∀ i < n, ∀ j < l.length, n ≤ j → l.getD i 0 ≤ l.getD j 0

example : sortAsc [3, 1, 4, 1, 5, 9, 2] = [1, 1, 2, 3, 4, 5, 9] := by decide
example : spaceSeparated [30, 20, 15, 10, 5] = "30 20 15 10 5" := by decide
example : printLoop [1, 1, 2, 3, 4, 5, 9] = "1 1 2 3 4 5 9 " := by decide

/-! ## Non-modifying sequence operations

`src/algorithm.cpp` (lines 60 and 83-84) documents `std::find`,
`std::count`, `std::all_of`, `std::mismatch`, … as operations "that do
not change the original range of elements".  Modelled from the spec:
the operations themselves are standard-library code, not part of this
repository, so each is embedded as the linear scan the standard
describes.  To make the frame property expressible, each loop returns
the range it walked over alongside its result: the loop reads elements
and rebuilds the traversed range cell by cell, and the theorem that the
returned range equals the input is exactly "the call leaves the
sequence unchanged". -/

/-- `std::find(first, last, v)`: position of the first element equal to
`v` (the example prints `std::distance(begin, it)`), or `none` for
`last`; second component is the range after the call. -/
def findLoop (v : Int) : List Int → Option Nat × List Int
  | [] => (none, [])
  | x :: xs =>
      if x = v then (some 0, x :: xs)
      else ((findLoop v xs).1.map Nat.succ, x :: (findLoop v xs).2)

/-- `std::find_if(first, last, p)`: position of the first element
satisfying `p`, and the range after the call. -/
def findIfLoop (p : Int → Bool) : List Int → Option Nat × List Int
  | [] => (none, [])
  | x :: xs =>
      if p x then (some 0, x :: xs)
      else ((findIfLoop p xs).1.map Nat.succ, x :: (findIfLoop p xs).2)

/-- `std::count(first, last, v)`, and the range after the call. -/
def countLoop (v : Int) : List Int → Nat × List Int
  | [] => (0, [])
  | x :: xs =>
      ((if x = v then (countLoop v xs).1 + 1 else (countLoop v xs).1),
       x :: (countLoop v xs).2)

/-- `std::count_if(first, last, p)`, and the range after the call. -/
def countIfLoop (p : Int → Bool) : List Int → Nat × List Int
  | [] => (0, [])
  | x :: xs =>
      ((if p x then (countIfLoop p xs).1 + 1 else (countIfLoop p xs).1),
       x :: (countIfLoop p xs).2)

/-- `std::all_of(first, last, p)` (stops at the first failure), and the
range after the call. -/
def allOfLoop (p : Int → Bool) : List Int → Bool × List Int
  | [] => (true, [])
  | x :: xs =>
      if p x then ((allOfLoop p xs).1, x :: (allOfLoop p xs).2)
      else (false, x :: xs)

/-- `std::any_of(first, last, p)` (stops at the first success), and the
range after the call. -/
def anyOfLoop (p : Int → Bool) : List Int → Bool × List Int
  | [] => (false, [])
  | x :: xs =>
      if p x then (true, x :: xs)
      else ((anyOfLoop p xs).1, x :: (anyOfLoop p xs).2)

/-- `std::none_of(first, last, p)` (stops at the first success), and the
range after the call. -/
def noneOfLoop (p : Int → Bool) : List Int → Bool × List Int
  | [] => (true, [])
  | x :: xs =>
      if p x then (false, x :: xs)
      else ((noneOfLoop p xs).1, x :: (noneOfLoop p xs).2)

/-- `std::mismatch(first1, last1, first2)`: position of the first
disagreement (or `none`), and both ranges after the call.  The standard
requires the second range to extend at least to `first2 + (last1 -
first1)`; the example uses equal-length vectors. -/
def mismatchLoop : List Int → List Int → Option Nat × (List Int × List Int)
  | [], l2 => (none, ([], l2))
  | x :: xs, [] => (none, (x :: xs, []))
  | x :: xs, y :: ys =>
      if x = y then
        ((mismatchLoop xs ys).1.map Nat.succ,
         (x :: (mismatchLoop xs ys).2.1, y :: (mismatchLoop xs ys).2.2))
      else (some 0, (x :: xs, y :: ys))

example : (findLoop 3 [1, 2, 3, 4, 5]).1 = some 2 := by decide
example : (countLoop 2 [1, 2, 2, 3, 2, 4]).1 = 3 := by decide
example : (mismatchLoop [1, 2, 3, 4, 5] [1, 2, 0, 4, 5]).1 = some 2 := by decide

/-! ## The catalog and the lookup service

The catalog entries are the repository's text.  The `lookup` operation
is not implemented anywhere in the repository; the spec alone describes
it.  Modelled from the spec: "`lookup(operation_name) -> description,
example`, fails with NotFound when the name is absent", the only error
kind being `NotFound`. -/

/-- One documented operation: its name, description and (optional)
worked example, as in the spec's data model. -/
structure CatalogEntry where
  topic : String
  operation_name : String
  description : String
  example_text : String
  deriving DecidableEq, Repr

/-- Modelled from the spec: the only error kind of the lookup service is
`NotFound` for an unrecognized operation name. -/
inductive LookupError where
  | NotFound
  deriving DecidableEq, Repr

/-- Modelled from the spec: `lookup(operation_name)` returns the first
catalog entry bearing that name, and fails with `NotFound` when the
name is absent.  It is a pure function of the catalog and the name, so
it is deterministic and side-effect-free. -/
def lookup (cat : List CatalogEntry) (name : String) : Except LookupError CatalogEntry :=
  match cat.find? (fun e => e.operation_name == name) with
  | some e => Except.ok e
  | none => Except.error LookupError.NotFound

/-- The bitset feature table of `src/bitset.cpp` (lines 75-88) as a
catalog: name, description and example column of each row. -/
def bitsetFeatureCatalog : List CatalogEntry :=
  [⟨"bitset", ".set()", "Sets all bits to 1", "b.set();"⟩,
   ⟨"bitset", ".reset()", "Sets all bits to 0", "b.reset();"⟩,
   ⟨"bitset", ".flip()", "Toggles all bits", "b.flip();"⟩,
   ⟨"bitset", ".count()", "Returns number of 1s", "b.count();"⟩,
   ⟨"bitset", ".any()", "Checks if any bit is 1", "b.any();"⟩,
   ⟨"bitset", ".none()", "Checks if all bits are 0", "b.none();"⟩,
   ⟨"bitset", ".size()", "Returns total bit size", "b.size();"⟩,
   ⟨"bitset", ".test(i)", "Checks if bit at index i", "b.test(3);"⟩,
   ⟨"bitset", ".to_ulong()", "Converts to unsigned long", "b.to_ulong();"⟩,
   ⟨"bitset", ".to_string()", "Converts to binary string", "b.to_string();"⟩]

/-! ## The `Algorithm Functions` table (`src/algorithm.cpp`, lines 111-128)

One list of operation names per topic, in the table's order. -/

/-- Row "Non-Modifying Sequence Operations" of the table. -/
def nonModifyingOps : List String :=
  ["all_of", "any_of", "none_of", "for_each", "count", "count_if",
   "mismatch", "equal", "find", "find_if", "find_if_not", "find_end",
   "find_first_of", "adjacent_find", "search", "search_n"]

/-- Row "Modifying Sequence Operations" of the table. -/
def modifyingOps : List String :=
  ["copy", "copy_n", "copy_if", "copy_backward", "move", "move_backward",
   "fill", "fill_n", "transform", "generate", "generate_n", "remove",
   "remove_if", "remove_copy", "remove_copy_if", "replace", "replace_if",
   "replace_copy", "replace_copy_if", "swap", "swap_ranges", "iter_swap",
   "reverse", "reverse_copy", "rotate", "rotate_copy", "random_shuffle",
   "shuffle"]

/-- Row "Sorting and Partitioning" of the table. -/
def sortingPartitioningOps : List String :=
  ["is_sorted", "is_sorted_until", "sort", "partial_sort",
   "partial_sort_copy", "stable_sort", "nth_element", "partition",
   "partition_point", "is_partitioned", "inplace_merge"]

/-- Row "Binary Search" of the table. -/
def binarySearchOps : List String :=
  ["lower_bound", "upper_bound", "binary_search", "equal_range"]

/-- Row "Heap Operations" of the table. -/
def heapOps : List String :=
  ["is_heap", "is_heap_until", "make_heap", "push_heap", "pop_heap",
   "sort_heap"]

/-- Row "Set Operations" of the table. -/
def setOperationOps : List String :=
  ["merge", "includes", "set_union", "set_intersection", "set_difference",
   "set_symmetric_difference"]

/-- Row "Randomized Algorithms" of the table. -/
def randomizedOps : List String :=
  ["random_shuffle", "shuffle", "sample"]

/-- The whole `Algorithm Functions` table: topic name paired with that
topic's operation names. -/
def algorithmFunctionsTable : List (String × List String) :=
  [("Non-Modifying Sequence Operations", nonModifyingOps),
   ("Modifying Sequence Operations", modifyingOps),
   ("Sorting and Partitioning", sortingPartitioningOps),
   ("Binary Search", binarySearchOps),
   ("Heap Operations", heapOps),
   ("Set Operations", setOperationOps),
   ("Randomized Algorithms", randomizedOps)]

/-! ## Helper lemmas -/

/-- A power of two dividing `c` also divides `r &&& c`: the low bits of
`c` being zero forces the corresponding bits of the conjunction to be
zero. -/
theorem two_pow_dvd_land (r c k : Nat) (h : 2 ^ k ∣ c) : 2 ^ k ∣ r &&& c := by
  obtain ⟨m, rfl⟩ := h
  apply Nat.dvd_of_mod_eq_zero
  calc (r &&& 2 ^ k * m) % 2 ^ k
      = (r &&& 2 ^ k * m) &&& (2 ^ k - 1) := (Nat.and_pow_two_sub_one_eq_mod _ _).symm
    _ = r &&& (2 ^ k * m &&& (2 ^ k - 1)) := Nat.land_assoc _ _ _
    _ = r &&& (2 ^ k * m % 2 ^ k) := by rw [Nat.and_pow_two_sub_one_eq_mod]
    _ = r &&& 0 := by rw [Nat.mul_mod_right]
    _ = 0 := by simp

/-- Fuel bound for the carry loop: if `2 ^ (8 - n)` divides the carry
(and the carry fits in 8 bits), `n` rounds of fuel drive it to zero —
each round doubles the power of two dividing the carry, and a multiple
of `2 ^ 8` below `256` is `0`. -/
theorem carryLoop_snd_zero :
    ∀ (n r c : Nat), c < 256 → 2 ^ (8 - n) ∣ c → (carryLoop n (r, c)).2 = 0 := by
  intro n
  induction n with
  | zero =>
      intro r c hlt hdvd
      have h256 : (2 : Nat) ^ (8 - 0) = 256 := by norm_num
      rw [h256] at hdvd
      have hc : c = 0 := Nat.eq_zero_of_dvd_of_lt hdvd hlt
      simp [carryLoop, hc]
  | succ n ih =>
      intro r c hlt hdvd
      by_cases hc : c = 0
      · simp [carryLoop, hc]
      · rw [carryLoop, if_neg hc]
        apply ih
        · exact Nat.mod_lt _ (by norm_num)
        · rcases le_or_lt 8 n with h8 | h8
          · have h0 : 8 - n = 0 := Nat.sub_eq_zero_of_le h8
            rw [h0, pow_zero]
            exact Nat.one_dvd _
          · have hd : 2 ^ (7 - n) ∣ c := by
              have he : 8 - (n + 1) = 7 - n := by omega
              rwa [he] at hdvd
            have h1 : 2 ^ (7 - n) ∣ r &&& c := two_pow_dvd_land r c _ hd
            have h2 : 2 ^ (8 - n) ∣ (r &&& c) <<< 1 := by
              rw [Nat.shiftLeft_eq]
              have he : 8 - n = (7 - n) + 1 := by omega
              rw [he, pow_succ, pow_one]
              exact mul_dvd_mul h1 dvd_rfl
            have h3 : 2 ^ (8 - n) ∣ 256 := by
              have he : (256 : Nat) = 2 ^ 8 := by norm_num
              rw [he]
              exact pow_dvd_pow 2 (by omega)
            exact (Nat.dvd_mod_iff h3).mpr h2

/-- `std::find` walks the range without writing to it. -/
theorem findLoop_frame (v : Int) (l : List Int) : (findLoop v l).2 = l := by
  induction l with
  | nil => rfl
  | cons x xs ih =>
      rw [findLoop]
      split
      · rfl
      · simpa using ih

/-- `std::find_if` walks the range without writing to it. -/
theorem findIfLoop_frame (p : Int → Bool) (l : List Int) : (findIfLoop p l).2 = l := by
  induction l with
  | nil => rfl
  | cons x xs ih =>
      rw [findIfLoop]
      split
      · rfl
      · simpa using ih

/-- `std::count` walks the range without writing to it. -/
theorem countLoop_frame (v : Int) (l : List Int) : (countLoop v l).2 = l := by
  induction l with
  | nil => rfl
  | cons x xs ih =>
      rw [countLoop]
      simpa using ih

/-- `std::count_if` walks the range without writing to it. -/
theorem countIfLoop_frame (p : Int → Bool) (l : List Int) : (countIfLoop p l).2 = l := by
  induction l with
  | nil => rfl
  | cons x xs ih =>
      rw [countIfLoop]
      simpa using ih

/-- `std::all_of` walks the range without writing to it. -/
theorem allOfLoop_frame (p : Int → Bool) (l : List Int) : (allOfLoop p l).2 = l := by
  induction l with
  | nil => rfl
  | cons x xs ih =>
      rw [allOfLoop]
      split
      · simpa using ih
      · rfl

/-- `std::any_of` walks the range without writing to it. -/
theorem anyOfLoop_frame (p : Int → Bool) (l : List Int) : (anyOfLoop p l).2 = l := by
  induction l with
  | nil => rfl
  | cons x xs ih =>
      rw [anyOfLoop]
      split
      · rfl
      · simpa using ih

/-- `std::none_of` walks the range without writing to it. -/
theorem noneOfLoop_frame (p : Int → Bool) (l : List Int) : (noneOfLoop p l).2 = l := by
  induction l with
  | nil => rfl
  | cons x xs ih =>
      rw [noneOfLoop]
      split
      · rfl
      · simpa using ih

/-- `std::mismatch` walks both ranges without writing to them. -/
theorem mismatchLoop_frame :
    ∀ l1 l2 : List Int, (mismatchLoop l1 l2).2 = (l1, l2)
  | [], _ => rfl
  | _ :: _, [] => rfl
  | x :: xs, y :: ys => by
      rw [mismatchLoop]
      split
      · simp [mismatchLoop_frame xs ys]
      · rfl

/-! ## Claim theorems -/

/-- C1: the documentation-accuracy invariant fails on the source.
Example 2 of `src/bitset.cpp` runs `set(0); reset(1); flip(2)` on
`std::bitset<8>("10101010")` and prints `10101101`, while its Results
block documents `10101011` (the flip of bit 2 is missing from the
documented output).  Example 8 prints the 8-character `00011000`, while
its Results block documents the 9-character `000011000`, which no
`std::bitset<8>` rendering can equal. -/
theorem documented_output_mismatch :
    (bsToString
        (bsFlip (bsReset (bsSet (bsOfString ['1', '0', '1', '0', '1', '0', '1', '0']) 0) 1) 2)
        = ['1', '0', '1', '0', '1', '1', '0', '1'] ∧
      ['1', '0', '1', '0', '1', '1', '0', '1'] ≠ ['1', '0', '1', '0', '1', '0', '1', '1']) ∧
    (bsToString
        (binaryAdditionResult (bsOfString ['1', '1', '0', '1']) (bsOfString ['1', '0', '1', '1']))
        = ['0', '0', '0', '1', '1', '0', '0', '0'] ∧
      ['0', '0', '0', '1', '1', '0', '0', '0']
        ≠ ['0', '0', '0', '0', '1', '1', '0', '0', '0']) := by
  decide

/-- C2: any outcome `std::sort` may produce on `{10, 20, 5, 15, 30}`
with the comparator `a > b` — a permutation of the input sorted
descending — prints space-separated as `30 20 15 10 5`.  Distinct
elements make that outcome unique. -/
theorem sort_descending_output (l : List Int)
    (hperm : l.Perm [10, 20, 5, 15, 30])
    (hsort : l.Sorted (· ≥ ·)) :
    spaceSeparated l = "30 20 15 10 5" := by
  haveI : IsAntisymm Int (· ≥ ·) := ⟨fun a b h1 h2 => le_antisymm h2 h1⟩
  have ht : l = [30, 20, 15, 10, 5] :=
    List.eq_of_perm_of_sorted (hperm.trans (by decide)) hsort (by decide)
  rw [ht]
  decide

/-- Witness for C2 at the sorted permutation `[30, 20, 15, 10, 5]`. -/
theorem sort_descending_output_witness :
    ([30, 20, 15, 10, 5] : List Int).Perm [10, 20, 5, 15, 30] ∧
      ([30, 20, 15, 10, 5] : List Int).Sorted (· ≥ ·) ∧
      spaceSeparated [30, 20, 15, 10, 5] = "30 20 15 10 5" :=
  ⟨by decide, by decide, sort_descending_output [30, 20, 15, 10, 5] (by decide) (by decide)⟩

/-- C3: `lookup` on a name matching no catalog entry returns exactly
`NotFound`: the error type has no other constructor, and no default
entry is produced. -/
theorem lookup_absent_notFound (cat : List CatalogEntry) (name : String)
    (h : ∀ e ∈ cat, e.operation_name ≠ name) :
    lookup cat name = Except.error LookupError.NotFound := by
  have hf : cat.find? (fun e => e.operation_name == name) = none := by
    rw [List.find?_eq_none]
    intro e he
    simpa using h e he
  simp [lookup, hf]

/-- Witness for C3: `.pop_back()` names no entry of the bitset feature
catalog, and looking it up yields `NotFound`. -/
theorem lookup_absent_notFound_witness :
    (∀ e ∈ bitsetFeatureCatalog, e.operation_name ≠ ".pop_back()") ∧
      lookup bitsetFeatureCatalog ".pop_back()" = Except.error LookupError.NotFound :=
  ⟨by decide, lookup_absent_notFound bitsetFeatureCatalog ".pop_back()" (by decide)⟩

/-- C4: `lookup` on the name of any entry of the catalog returns that
entry — description and example unchanged — and, being a pure function,
returns it identically on every repetition. -/
theorem lookup_present_ok :
    ∀ e ∈ bitsetFeatureCatalog,
      lookup bitsetFeatureCatalog e.operation_name = Except.ok e := by
  intro e he
  fin_cases he <;> rfl

/-- Witness for C4 at the `.count()` entry. -/
theorem lookup_present_ok_witness :
    (⟨"bitset", ".count()", "Returns number of 1s", "b.count();"⟩ : CatalogEntry)
        ∈ bitsetFeatureCatalog ∧
      lookup bitsetFeatureCatalog ".count()"
        = Except.ok ⟨"bitset", ".count()", "Returns number of 1s", "b.count();"⟩ :=
  ⟨by decide, lookup_present_ok ⟨"bitset", ".count()", "Returns number of 1s", "b.count();"⟩ (by decide)⟩

/-- C5: within each topic row of the `Algorithm Functions` table of
`src/algorithm.cpp`, every operation name occurs at most once. -/
theorem algorithm_table_nodup :
    ∀ t ∈ algorithmFunctionsTable, t.2.Nodup := by
  decide

/-- Witness for C5 at the `Heap Operations` row. -/
theorem algorithm_table_nodup_witness :
    ("Heap Operations", heapOps) ∈ algorithmFunctionsTable ∧ heapOps.Nodup :=
  ⟨by decide, algorithm_table_nodup ("Heap Operations", heapOps) (by decide)⟩

/-- C6 (counterexample): the binary-addition loop of Example 8 in
`src/bitset.cpp` on `bitset<8>("1101")` and `bitset<8>("1011")` does
not print the documented `000011000` — that string has nine characters,
one more than any `std::bitset<8>` rendering. -/
theorem binary_addition_doc_output_false :
    bsToString
        (binaryAdditionResult (bsOfString ['1', '1', '0', '1']) (bsOfString ['1', '0', '1', '1']))
      ≠ ['0', '0', '0', '0', '1', '1', '0', '0', '0'] := by
  decide

/-- C6 (amended): the XOR-and-carry loop on `bitset<8>("1101")` (13) and
`bitset<8>("1011")` (11) yields the bitset of value 24, which prints as
the 8-character `00011000`. -/
theorem binary_addition_result_output :
    binaryAdditionResult (bsOfString ['1', '1', '0', '1']) (bsOfString ['1', '0', '1', '1']) = 24 ∧
      bsToString
          (binaryAdditionResult (bsOfString ['1', '1', '0', '1']) (bsOfString ['1', '0', '1', '1']))
        = ['0', '0', '0', '1', '1', '0', '0', '0'] := by
  decide

/-- C7 (counterexample): the standard does not force
`std::nth_element(nums.begin(), nums.begin() + 2, nums.end())` on
`{3, 1, 4, 1, 5, 9, 2}` to print the fully sorted `1 1 2 3 4 5 9 `:
the outcome `[1, 1, 2, 9, 5, 4, 3]` satisfies the `nth_element`
postcondition and prints differently. -/
theorem nth_element_full_sort_false :
    ¬ ∀ l : List Int, nthElementPost [3, 1, 4, 1, 5, 9, 2] 2 l →
        printLoop l = "1 1 2 3 4 5 9 " := by
  intro h
  have hpost : nthElementPost [3, 1, 4, 1, 5, 9, 2] 2 [1, 1, 2, 9, 5, 4, 3] :=
    ⟨by decide, by decide, by decide⟩
  exact absurd (h [1, 1, 2, 9, 5, 4, 3] hpost) (by decide)

/-- C7 (amended): the documented output `1 1 2 3 4 5 9 ` is one
permissible outcome of `std::nth_element` on `{3, 1, 4, 1, 5, 9, 2}`
with `n = 2` — it satisfies the postcondition — and what every
conforming outcome guarantees is that position 2 holds the third
smallest element, 2; full sortedness is not guaranteed. -/
theorem nth_element_guarantee :
    nthElementPost [3, 1, 4, 1, 5, 9, 2] 2 [1, 1, 2, 3, 4, 5, 9] ∧
      ∀ l : List Int, nthElementPost [3, 1, 4, 1, 5, 9, 2] 2 l → l[2]? = some 2 := by
  constructor
  · exact ⟨by decide, by decide, by decide⟩
  · intro l h
    rw [h.2.1]
    decide

/-- Witness for C7 (amended) at the documented outcome
`[1, 1, 2, 3, 4, 5, 9]`. -/
theorem nth_element_guarantee_witness :
    nthElementPost [3, 1, 4, 1, 5, 9, 2] 2 [1, 1, 2, 3, 4, 5, 9] ∧
      ([1, 1, 2, 3, 4, 5, 9] : List Int)[2]? = some 2 :=
  ⟨⟨by decide, by decide, by decide⟩,
   nth_element_guarantee.2 [1, 1, 2, 3, 4, 5, 9] ⟨by decide, by decide, by decide⟩⟩

/-- C8: for every pair of `std::bitset<8>` values, the carry-propagation
loop of Example 8 terminates within 8 iterations: 8 rounds of fuel
always drive the carry to zero, because each round shifts the carry one
bit further left until it leaves the 8-bit window. -/
theorem carry_loop_terminates (b1 b2 : Nat) (_hb1 : b1 < 256) (_hb2 : b2 < 256) :
    (carryLoop 8 (b1 ^^^ b2, ((b1 &&& b2) <<< 1) % 256)).2 = 0 :=
  carryLoop_snd_zero 8 _ _ (Nat.mod_lt _ (by norm_num)) (by norm_num)

/-- Witness for C8 at the example's own inputs 13 and 11. -/
theorem carry_loop_terminates_witness :
    (13 : Nat) < 256 ∧ (11 : Nat) < 256 ∧
      (carryLoop 8 (13 ^^^ 11, ((13 &&& 11) <<< 1) % 256)).2 = 0 :=
  ⟨by decide, by decide, carry_loop_terminates 13 11 (by decide) (by decide)⟩

/-- C9: the operations documented as non-modifying — `std::find`,
`std::find_if`, `std::count`, `std::count_if`, `std::all_of`,
`std::any_of`, `std::none_of`, `std::mismatch` — leave every input
range unchanged: the range each loop hands back equals the range it was
given. -/
theorem nonmodifying_ops_frame (v : Int) (p : Int → Bool) (l l2 : List Int) :
    (findLoop v l).2 = l ∧ (findIfLoop p l).2 = l ∧ (countLoop v l).2 = l ∧
      (countIfLoop p l).2 = l ∧ (allOfLoop p l).2 = l ∧ (anyOfLoop p l).2 = l ∧
      (noneOfLoop p l).2 = l ∧ (mismatchLoop l l2).2 = (l, l2) :=
  ⟨findLoop_frame v l, findIfLoop_frame p l, countLoop_frame v l, countIfLoop_frame p l,
   allOfLoop_frame p l, anyOfLoop_frame p l, noneOfLoop_frame p l, mismatchLoop_frame l l2⟩

/-- C10: building a `std::bitset<8>` from an 8-character binary string
and rendering it with `to_string()` gives the string back unchanged,
and `to_ulong()` of the bitset built from `"10110110"` — the value the
model stores — is 182, as Example 5 of `src/bitset.cpp` documents. -/
theorem bitset_string_roundtrip :
    (∀ s : List Char, s.length = 8 → (∀ c ∈ s, c = '0' ∨ c = '1') →
        bsToString (bsOfString s) = s) ∧
      bsOfString ['1', '0', '1', '1', '0', '1', '1', '0'] = 182 := by
  constructor
  · intro s hlen hbin
    rcases s with _ | ⟨c0, _ | ⟨c1, _ | ⟨c2, _ | ⟨c3, _ | ⟨c4, _ | ⟨c5, _ | ⟨c6, _ |
      ⟨c7, _ | ⟨c8, s⟩⟩⟩⟩⟩⟩⟩⟩⟩ <;>
      simp only [List.length_cons, List.length_nil] at hlen <;> try omega
    have h0 := hbin c0 (by simp)
    have h1 := hbin c1 (by simp)
    have h2 := hbin c2 (by simp)
    have h3 := hbin c3 (by simp)
    have h4 := hbin c4 (by simp)
    have h5 := hbin c5 (by simp)
    have h6 := hbin c6 (by simp)
    have h7 := hbin c7 (by simp)
    clear hbin hlen
    rcases h0 with rfl | rfl <;> rcases h1 with rfl | rfl <;> rcases h2 with rfl | rfl <;>
      rcases h3 with rfl | rfl <;> rcases h4 with rfl | rfl <;> rcases h5 with rfl | rfl <;>
      rcases h6 with rfl | rfl <;> rcases h7 with rfl | rfl <;> rfl
  · decide

/-- Witness for C10 at the string `"10110110"` of Example 5. -/
theorem bitset_string_roundtrip_witness :
    (['1', '0', '1', '1', '0', '1', '1', '0'] : List Char).length = 8 ∧
      (∀ c ∈ (['1', '0', '1', '1', '0', '1', '1', '0'] : List Char), c = '0' ∨ c = '1') ∧
      bsToString (bsOfString ['1', '0', '1', '1', '0', '1', '1', '0'])
        = ['1', '0', '1', '1', '0', '1', '1', '0'] :=
  ⟨by decide, by decide,
   bitset_string_roundtrip.1 ['1', '0', '1', '1', '0', '1', '1', '0'] (by decide) (by decide)⟩
